import Mathlib

/-!
Verification of the transcript retrieval, selection and rendering core of a
YouTube-transcript command-line tool.

The development shallowly embeds the Python sources:

* `extract_video_id` embeds `YouTubeService.extract_video_id`
  (src/core/services/youtube_service.py) together with the three compiled
  recognition patterns `YOUTUBE_ID_PATTERNS`.  Python's `re.search` scans
  candidate start positions left to right; at each position the alternation
  `(?:v=|/)` tries `v=` first, then `/`, and the group `[0-9A-Za-z_-]{11}`
  consumes exactly the next eleven characters when each lies in the class.
  The trailing `(?:[\x5c?&].*)?` of the first pattern is optional and never
  affects whether a match exists nor the captured group, so it is dropped.
* `fetch_transcript` embeds the selection logic of
  `YouTubeService.fetch_transcript` (the fetching of raw segment data over
  the network, lines 119-133 of the source, lies outside the policy and is
  not modelled).  The provider operation `TranscriptList.find_transcript`
  belongs to the external `youtube_transcript_api` collaborator, so it is
  modelled from the specification.
* `segment_field` embeds `YouTubeService._segment_field`; a `PySegment`
  records the duck-typed shapes the Python function distinguishes
  (mapping, attribute holder, `to_dict` capability).
* `format_timestamp`, `segments_to_markdown` embed
  `MarkdownFormatter._format_timestamp` and
  `MarkdownFormatter._segments_to_markdown` (src/core/formatter.py).
  Python floats are embedded as rationals; `int(x)` truncates toward zero,
  embedded by `pyTrunc`.  The relevant inputs (3599.9, 3600.0) behave
  identically for binary doubles and rationals here: `int` of the double
  closest to 3599.9 is also 3599.
* `format_transcript_to_markdown` embeds the condensed renderer
  `format_transcript_to_markdown` of src/app.py; the network-dependent
  `get_video_title(url) or "Video Transcript"` is embedded by passing the
  lookup's optional result and applying `resolveTitle` (Python `or`
  discards both `None` and the empty string).
-/

/-! ### Video-ID extractor (src/core/services/youtube_service.py, lines 19-67) -/

/-- The character class `[0-9A-Za-z_-]` of the recognition patterns. -/
def idChar (c : Char) : Bool :=
  ('0' ≤ c && c ≤ '9') || ('A' ≤ c && c ≤ 'Z') || ('a' ≤ c && c ≤ 'z') || c == '_' || c == '-'

/-- The capture group `[0-9A-Za-z_-]{11}`: succeeds when the next eleven
characters all lie in the class, capturing exactly those eleven. -/
def takeGroup (cs : List Char) : Option (List Char) :=
  let g := cs.take 11
  if g.length = 11 && g.all idChar then some g else none

/-- One attempt of the first pattern `(?:v=|/)([0-9A-Za-z_-]{11})` at a fixed
start position: the alternation tries `v=`, then `/`. -/
def tryHead1 (cs : List Char) : Option (List Char) :=
  match cs with
  | 'v' :: '=' :: tail => takeGroup tail
  | '/' :: tail => takeGroup tail
  | _ => none

/-- `re.search` for the first pattern: scan start positions left to right. -/
def searchP1 : List Char → Option (List Char)
  | [] => none
  | c :: rest =>
    match tryHead1 (c :: rest) with
    | some g => some g
    | none => searchP1 rest

/-- `re.search` for a pattern of the shape `literal([0-9A-Za-z_-]{11})`
(the second and third patterns): scan positions left to right; where the
literal matches but fewer than eleven class characters follow, the scan
continues at the next position. -/
def searchLit (lit : List Char) : List Char → Option (List Char)
  | [] => none
  | c :: rest =>
    if lit.isPrefixOf (c :: rest) then
      match takeGroup ((c :: rest).drop lit.length) with
      | some g => some g
      | none => searchLit lit rest
    else searchLit lit rest

/-- The loop body of `extract_video_id`: try the patterns in their fixed
order, returning the first captured group of length eleven. -/
def firstPattern (cs : List Char) : Option (List Char) :=
  match searchP1 cs with
  | some g =>
    if g.length = 11 then some g
    else none
  | none =>
    match searchLit "youtu.be/".data cs with
    | some g =>
      if g.length = 11 then some g
      else none
    | none =>
      match searchLit "youtube.com/embed/".data cs with
      | some g => if g.length = 11 then some g else none
      | none => none

/-- `YouTubeService.extract_video_id`: empty input gives `none`; otherwise the
first pattern whose captured group has length eleven wins.  (In the source the
length check failing lets the loop continue with the next pattern; since every
captured group has length eleven by construction, the two flows agree, see
`takeGroup_some`.) -/
def extract_video_id (url : String) : Option String :=
  if url = "" then none
  else (firstPattern url.data).map String.mk

/-! ### Transcript tracks and the selection policy
(src/core/services/youtube_service.py, lines 69-173) -/

/-- One selectable transcript variant, as exposed by the provider's catalog:
a language code and the auto-generated flag. -/
structure Track where
  language_code : String
  is_generated : Bool
deriving DecidableEq

/-- Python's `sorted(set(xs))`: the duplicate-free list of the elements in
ascending order, embedded as an insertion sort of `dedup`. -/
def sortedUnique (xs : List String) : List String :=
  List.insertionSort (fun a b => a ≤ b) xs.dedup

/-- Modelled from the spec: `TranscriptList.find_transcript` of the external
`youtube_transcript_api` provider, which src/core/services/youtube_service.py
calls but this repository does not define.  Per the spec, selection walks the
requested language codes in order and prefers a manually created track over a
generated one for the same code (manual-preference tie-break), failing with
`NoTranscriptFound` (here `none`) when no code matches. -/
def find_transcript (catalog : List Track) : List String → Option Track
  | [] => none
  | l :: rest =>
    match catalog.find? (fun t => t.language_code == l && !t.is_generated) with
    | some t => some t
    | none =>
      match catalog.find? (fun t => t.language_code == l && t.is_generated) with
      | some t => some t
      | none => find_transcript catalog rest

/-- The failures the selection policy can raise (both `ValueError` in the
source, distinguished by their message). -/
inductive FetchError where
  | languageNotAvailable (message : String)
  | noTranscriptsAvailable
deriving DecidableEq

/-- The selection logic of `YouTubeService.fetch_transcript`: the explicit
request, then the manual preference, then the catch-all; a success returns the
selected track together with `unique_languages = sorted(set(available_languages))`.
`available_languages` itself is `sorted({t.language_code for t in transcript_list})`
from `_get_transcript_list`. -/
def fetch_transcript (catalog : List Track) (language : Option String) :
    Except FetchError (Track × List String) :=
  let available_languages := sortedUnique (catalog.map Track.language_code)
  match language with
  | some l =>
    match find_transcript catalog [l] with
    | some t => Except.ok (t, sortedUnique available_languages)
    | none =>
      Except.error (FetchError.languageNotAvailable
        ("Language \'" ++ l ++ "\' not found. Available languages: " ++
          String.intercalate ", " available_languages))
  | none =>
    let manual_langs := (catalog.filter fun t => !t.is_generated).map Track.language_code
    let step2 : Option Track :=
      if manual_langs = [] then none else find_transcript catalog manual_langs
    match step2 with
    | some t => Except.ok (t, sortedUnique available_languages)
    | none =>
      match find_transcript catalog available_languages with
      | some t => Except.ok (t, sortedUnique available_languages)
      | none => Except.error FetchError.noTranscriptsAvailable

/-! ### Segment normalization (`YouTubeService._segment_field`, lines 216-266) -/

/-- The duck-typed shapes of a raw segment record that `_segment_field`
distinguishes.  `asDict`: `some d` when `isinstance(segment, dict)`.
`attrs`: the attribute table; an entry `(n, none)` is an attribute whose value
is Python `None`, a missing key means `hasattr` is false.  `toDict`: `none`
when no callable `to_dict` exists; `some (Except.error ())` when calling it
raises; `some (Except.ok none)` when it returns a non-dict;
`some (Except.ok (some d))` when it returns the dict `d`. -/
structure PySegment (α : Type) where
  asDict : Option (List (String × α))
  attrs : List (String × Option α)
  toDict : Option (Except Unit (Option (List (String × α))))

/-- Python `hasattr(segment, n)` followed by `getattr(segment, n)` being
non-`None`: `some v` exactly when the attribute exists with a non-`None`
value. -/
def attrLookup {α : Type} (attrs : List (String × Option α)) (n : String) : Option α :=
  match attrs.lookup n with
  | some (some v) => some v
  | _ => none

/-- The alias table of `_segment_field`. -/
def fieldAliases (n : String) : List String :=
  if n = "start" then ["offset", "time"]
  else if n = "duration" then ["length"]
  else if n = "text" then ["snippet"]
  else []

/-- The alias fallback loop of `_segment_field`: for each alias, a mapping
lookup when the segment is a dict (dead for actual dicts, which return in the
first step of `segment_field`), otherwise an attribute lookup; a `None`-valued
attribute lets the loop continue. -/
def aliasLookup {α : Type} (seg : PySegment α) : List String → Option α
  | [] => none
  | a :: rest =>
    match seg.asDict with
    | some d =>
      match d.lookup a with
      | some v => some v
      | none => aliasLookup seg rest
    | none =>
      match attrLookup seg.attrs a with
      | some v => some v
      | none => aliasLookup seg rest

/-- `YouTubeService._segment_field`: dict lookup with default, then direct
attribute, then the `to_dict` conversion (whose dict result is returned with
default even when the key is absent), then the alias loop, then the default. -/
def segment_field {α : Type} (seg : PySegment α) (n : String) (default : α) : α :=
  match seg.asDict with
  | some d => (d.lookup n).getD default
  | none =>
    match attrLookup seg.attrs n with
    | some v => v
    | none =>
      match seg.toDict with
      | some (Except.ok (some d)) => (d.lookup n).getD default
      | _ =>
        match aliasLookup seg (fieldAliases n) with
        | some v => v
        | none => default

/-! ### Markdown formatter (src/core/formatter.py) -/

/-- One timed caption unit (`TranscriptSegment` of src/core/model.py), floats
embedded as rationals. -/
structure TranscriptSegment where
  start : ℚ
  duration : ℚ
  text : String
deriving DecidableEq

/-- Python `int(x)` on a float: truncation toward zero. -/
def pyTrunc (q : ℚ) : ℤ := if 0 ≤ q then ⌊q⌋ else ⌈q⌉

/-- Python `f"{n:02d}"` for a non-negative value: pad with a zero to width
two. -/
def pad2 (n : ℕ) : String := if n < 10 then "0" ++ toString n else toString n

/-- `max(int(seconds), 0)` of `_format_timestamp`. -/
def totalClamped (seconds : ℚ) : ℕ := (max (pyTrunc seconds) 0).toNat

/-- `MarkdownFormatter._format_timestamp`: two `divmod` steps, the hours field
omitted when zero (`if hours:`). -/
def format_timestamp (seconds : ℚ) : String :=
  let total_seconds : ℕ := totalClamped seconds
  let minutes := total_seconds / 60
  let secs := total_seconds % 60
  let hours := minutes / 60
  let mins := minutes % 60
  if hours ≠ 0 then pad2 hours ++ ":" ++ pad2 mins ++ ":" ++ pad2 secs
  else pad2 mins ++ ":" ++ pad2 secs

/-- The whitespace Python's `str.strip()` removes, restricted to the ASCII
whitespace characters (the unicode spaces Python also strips do not occur in
the properties below). -/
def pySpace (c : Char) : Bool :=
  c == ' ' || c == '\t' || c == '\n' || c == '\r' || c == '\x0b' || c == '\x0c'

/-- Python `str.strip()` over the character list: drop whitespace from both
ends. -/
def stripChars (cs : List Char) : List Char :=
  ((cs.dropWhile pySpace).reverse.dropWhile pySpace).reverse

/-- `segment.text.replace("\n", " ").strip()` of `_segments_to_markdown`
(a one-character pattern, so `replace` maps newlines to spaces). -/
def cleanText (s : String) : String :=
  String.mk (stripChars (s.data.map fun c => if c = '\n' then ' ' else c))

/-- One bullet line `- [timestamp] text` of detailed mode. -/
def bulletLine (seg : TranscriptSegment) : String :=
  "- [" ++ format_timestamp seg.start ++ "] " ++ cleanText seg.text

/-- The loop of `_segments_to_markdown`: segments whose cleaned text is empty
contribute no line, the others contribute their bullet line in order. -/
def segLines : List TranscriptSegment → List String
  | [] => []
  | seg :: rest =>
    if cleanText seg.text = "" then segLines rest
    else bulletLine seg :: segLines rest

/-- The placeholder emitted when no bullet line was produced. -/
def placeholderLine : String := "_Transcript returned no readable segments._"

/-- `MarkdownFormatter._segments_to_markdown`: the loop, then the placeholder
when the result is empty. -/
def segments_to_markdown (segments : List TranscriptSegment) : List String :=
  let lines := segLines segments
  if lines = [] then [placeholderLine] else lines

/-! ### Condensed renderer (src/app.py, lines 77-93) -/

/-- `get_video_title(url) or "Video Transcript"`: Python `or` replaces both
`None` and the empty string by the fallback literal. -/
def resolveTitle (title : Option String) : String :=
  match title with
  | some t => if t = "" then "Video Transcript" else t
  | none => "Video Transcript"

/-- `format_transcript_to_markdown` of src/app.py: the header f-string, then
`" ".join(segment.text for segment in transcript)` appended.  The network
lookup `get_video_title(url)` is passed in as `title`. -/
def format_transcript_to_markdown (title : Option String) (url : String)
    (transcript : List TranscriptSegment) : String :=
  "# " ++ resolveTitle title ++ "\n\nURL: " ++ url ++ "\n\n" ++
    String.intercalate " " (transcript.map fun s => s.text)

/-- Written from the spec, for comparison: "all segment texts joined by single
spaces", as a recursion placing one space between adjacent texts. -/
def joinBySpaces : List String → String
  | [] => ""
  | [t] => t
  | t :: ts => t ++ " " ++ joinBySpaces ts

/-- Written from the spec (condensed mode, spec section 4.4): a header with
the resolved title and the URL only, followed by every segment's text — none
skipped, no timestamps — joined by single spaces into one paragraph. -/
def condensedSpecRender (title : Option String) (url : String)
    (segments : List TranscriptSegment) : String :=
  let header := "# " ++ resolveTitle title ++ "\n\nURL: " ++ url ++ "\n\n"
  header ++ joinBySpaces (segments.map fun s => s.text)

/-! ### Helper lemmas -/

lemma sortedUnique_nodup (xs : List String) : (sortedUnique xs).Nodup :=
  (List.perm_insertionSort _ _).symm.nodup (List.nodup_dedup xs)

lemma sortedUnique_sorted (xs : List String) :
    List.Sorted (fun a b => a ≤ b) (sortedUnique xs) :=
  List.sorted_insertionSort _ _

lemma mem_sortedUnique {a : String} {xs : List String} : a ∈ sortedUnique xs ↔ a ∈ xs :=
  (List.perm_insertionSort _ _).mem_iff.trans List.mem_dedup

lemma find_transcript_manual (catalog : List Track) :
    ∀ langs : List String,
      (∀ l ∈ langs, ∃ m ∈ catalog, m.language_code = l ∧ m.is_generated = false) →
      ∀ t : Track, find_transcript catalog langs = some t → t.is_generated = false := by
  intro langs
  induction langs with
  | nil => intro _ t h; simp [find_transcript] at h
  | cons l rest ih =>
    intro hall t h
    obtain ⟨m, hm, hcode, hgen⟩ := hall l (List.mem_cons_self l rest)
    cases hf : catalog.find? (fun t => t.language_code == l && !t.is_generated) with
    | none =>
      rw [List.find?_eq_none] at hf
      exact absurd (by simp [hcode, hgen]) (hf m hm)
    | some t2 =>
      have hp := List.find?_some hf
      simp only [find_transcript, hf, Option.some.injEq] at h
      subst h
      simp only [Bool.and_eq_true, Bool.not_eq_true'] at hp
      exact hp.2

lemma find_transcript_isSome (catalog : List Track) (l : String) (rest : List String)
    (h : ∃ m ∈ catalog, m.language_code = l ∧ m.is_generated = false) :
    ∃ t : Track, find_transcript catalog (l :: rest) = some t := by
  obtain ⟨m, hm, hcode, hgen⟩ := h
  have hex : ∃ x ∈ catalog, (fun t => t.language_code == l && !t.is_generated) x = true :=
    ⟨m, hm, by simp [hcode, hgen]⟩
  obtain ⟨t, ht⟩ := Option.isSome_iff_exists.mp (List.find?_isSome.mpr hex)
  exact ⟨t, by simp only [find_transcript, ht]⟩

lemma find_transcript_single_none (catalog : List Track) (l : String)
    (h : ∀ t ∈ catalog, t.language_code ≠ l) :
    find_transcript catalog [l] = none := by
  have h1 : catalog.find? (fun t => t.language_code == l && !t.is_generated) = none := by
    rw [List.find?_eq_none]; intro x hx; simp [h x hx]
  have h2 : catalog.find? (fun t => t.language_code == l && t.is_generated) = none := by
    rw [List.find?_eq_none]; intro x hx; simp [h x hx]
  simp [find_transcript, h1, h2]

lemma fetch_ok_langs (catalog : List Track) (language : Option String) (t : Track)
    (langs : List String)
    (h : fetch_transcript catalog language = Except.ok (t, langs)) :
    langs = sortedUnique (sortedUnique (catalog.map Track.language_code)) := by
  simp only [fetch_transcript] at h
  split at h
  · split at h
    · simp only [Except.ok.injEq, Prod.mk.injEq] at h
      exact h.2.symm
    · exact absurd h (by simp)
  · split at h
    · simp only [Except.ok.injEq, Prod.mk.injEq] at h
      exact h.2.symm
    · split at h
      · simp only [Except.ok.injEq, Prod.mk.injEq] at h
        exact h.2.symm
      · exact absurd h (by simp)

lemma list_eleven (l : List Char) (h : l.length = 11) :
    ∃ x0 x1 x2 x3 x4 x5 x6 x7 x8 x9 x10,
      l = [x0, x1, x2, x3, x4, x5, x6, x7, x8, x9, x10] := by
  rcases l with _ | ⟨x0, l⟩; · simp at h
  rcases l with _ | ⟨x1, l⟩; · simp at h
  rcases l with _ | ⟨x2, l⟩; · simp at h
  rcases l with _ | ⟨x3, l⟩; · simp at h
  rcases l with _ | ⟨x4, l⟩; · simp at h
  rcases l with _ | ⟨x5, l⟩; · simp at h
  rcases l with _ | ⟨x6, l⟩; · simp at h
  rcases l with _ | ⟨x7, l⟩; · simp at h
  rcases l with _ | ⟨x8, l⟩; · simp at h
  rcases l with _ | ⟨x9, l⟩; · simp at h
  rcases l with _ | ⟨x10, l⟩; · simp at h
  simp only [List.length_cons] at h
  have hl : l = [] := List.length_eq_zero.mp (by omega)
  subst hl
  exact ⟨x0, x1, x2, x3, x4, x5, x6, x7, x8, x9, x10, rfl⟩

lemma takeGroup_some {cs g : List Char} (h : takeGroup cs = some g) :
    g.length = 11 ∧ g.all idChar = true := by
  simp only [takeGroup] at h
  split at h
  · cases h
    next hcond =>
      simpa using hcond
  · exact absurd h (by simp)

lemma tryHead1_some {cs g : List Char} (h : tryHead1 cs = some g) :
    g.length = 11 ∧ g.all idChar = true := by
  unfold tryHead1 at h
  split at h
  · exact takeGroup_some h
  · exact takeGroup_some h
  · exact absurd h (by simp)

lemma searchP1_some {cs g : List Char} (h : searchP1 cs = some g) :
    g.length = 11 ∧ g.all idChar = true := by
  induction cs with
  | nil => simp [searchP1] at h
  | cons c rest ih =>
    simp only [searchP1] at h
    split at h
    · next heq => cases h; exact tryHead1_some heq
    · exact ih h

lemma searchLit_some {lit cs g : List Char} (h : searchLit lit cs = some g) :
    g.length = 11 ∧ g.all idChar = true := by
  induction cs with
  | nil => simp [searchLit] at h
  | cons c rest ih =>
    simp only [searchLit] at h
    split at h
    · split at h
      · next heq => cases h; exact takeGroup_some heq
      · exact ih h
    · exact ih h

lemma firstPattern_some {cs g : List Char} (h : firstPattern cs = some g) :
    g.length = 11 ∧ g.all idChar = true := by
  simp only [firstPattern] at h
  split at h
  · next heq =>
    split at h
    · cases h; exact searchP1_some heq
    · exact absurd h (by simp)
  · split at h
    · next heq =>
      split at h
      · cases h; exact searchLit_some heq
      · exact absurd h (by simp)
    · split at h
      · next heq =>
        split at h
        · cases h; exact searchLit_some heq
        · exact absurd h (by simp)
      · exact absurd h (by simp)

lemma segLines_eq_filter (segs : List TranscriptSegment) :
    segLines segs = (segs.filter fun s => cleanText s.text != "").map bulletLine := by
  induction segs with
  | nil => rfl
  | cons s rest ih =>
    by_cases hs : cleanText s.text = ""
    · simp [segLines, List.filter_cons, hs, ih]
    · simp [segLines, List.filter_cons, hs, ih]

lemma intercalate_go_spaces (bs : List String) :
    ∀ a : String, String.intercalate.go a " " bs = joinBySpaces (a :: bs) := by
  induction bs with
  | nil => intro a; rfl
  | cons b bs ih =>
    intro a
    rw [String.intercalate.go, ih (a ++ " " ++ b)]
    cases bs with
    | nil => rfl
    | cons c cs =>
      show (a ++ " " ++ b) ++ " " ++ joinBySpaces (c :: cs) =
        a ++ " " ++ (b ++ " " ++ joinBySpaces (c :: cs))
      simp [String.append_assoc]

lemma intercalate_spaces (l : List String) :
    String.intercalate " " l = joinBySpaces l := by
  cases l with
  | nil => rfl
  | cons a as => exact intercalate_go_spaces as a

/-! ### The claims -/

/-- C4, counterexample: `_format_timestamp` renders start 3599.9 as "59:59",
not "00:59:59" as the claim states — the hours field is omitted when zero. -/
theorem c4_counterexample : format_timestamp (35999 / 10) ≠ "00:59:59" := by
  have h : totalClamped (35999 / 10) = 3599 := by norm_num [totalClamped, pyTrunc]; rfl
  simp only [format_timestamp, h]
  decide

/-- C4, amended: start 3599.9 renders as "59:59" (hours omitted when zero),
3600.0 as "01:00:00", every negative start clamps to "00:00", and for
non-negative starts the timestamp depends only on floor(start). -/
theorem c4_timestamp_amended :
    format_timestamp (35999 / 10) = "59:59" ∧
    format_timestamp 3600 = "01:00:00" ∧
    (∀ q : ℚ, q < 0 → format_timestamp q = "00:00") ∧
    (∀ q : ℚ, 0 ≤ q → format_timestamp q = format_timestamp (⌊q⌋ : ℚ)) := by
  refine ⟨?_, ?_, ?_, ?_⟩
  · have h : totalClamped (35999 / 10) = 3599 := by norm_num [totalClamped, pyTrunc]; rfl
    simp only [format_timestamp, h]
    decide
  · have h : totalClamped 3600 = 3600 := by norm_num [totalClamped, pyTrunc]; rfl
    simp only [format_timestamp, h]
    decide
  · intro q hq
    have h1 : pyTrunc q ≤ 0 := by
      simp only [pyTrunc]
      split
      · linarith
      · exact Int.ceil_le.mpr (by exact_mod_cast hq.le)
    have h2 : totalClamped q = 0 := by
      simp only [totalClamped, Int.toNat_eq_zero]
      exact max_le h1 le_rfl
    simp only [format_timestamp, h2]
    decide
  · intro q hq
    have h1 : pyTrunc q = ⌊q⌋ := by simp [pyTrunc, hq]
    have h2 : pyTrunc (⌊q⌋ : ℚ) = ⌊q⌋ := by
      simp [pyTrunc, Int.floor_nonneg.mpr hq, Int.floor_intCast]
    simp only [format_timestamp, totalClamped, h1, h2]

/-- C4, witness: the amended claim applied at -5/2 and 7/2. -/
theorem c4_timestamp_witness :
    format_timestamp ((-5 : ℚ) / 2) = "00:00" ∧
    format_timestamp ((7 : ℚ) / 2) = format_timestamp ((⌊(7 : ℚ) / 2⌋ : ℚ)) :=
  ⟨c4_timestamp_amended.2.2.1 _ (by norm_num), c4_timestamp_amended.2.2.2 _ (by norm_num)⟩

/-- C5, counterexample: for a segment that is a mapping with an `offset` key
and no `start` key, `_segment_field` returns the default 0, not the alias
value 5: the mapping branch returns before the alias loop is reached. -/
theorem c5_counterexample :
    List.lookup "start" [("offset", (5 : ℚ))] = none ∧
    List.lookup "offset" [("offset", (5 : ℚ))] = some 5 ∧
    segment_field (⟨some [("offset", (5 : ℚ))], [], none⟩ : PySegment ℚ) "start" 0 = 0 ∧
    (0 : ℚ) ≠ 5 := ⟨rfl, rfl, rfl, by norm_num⟩

/-- C5, amended: for every segment that is a key-value mapping not containing
the requested field name, `_segment_field` returns the default — alias keys
present in the mapping are never consulted. -/
theorem c5_mapping_default {α : Type} (d : List (String × α))
    (attrs : List (String × Option α))
    (td : Option (Except Unit (Option (List (String × α))))) (n : String) (default : α)
    (h : d.lookup n = none) :
    segment_field ⟨some d, attrs, td⟩ n default = default := by
  simp [segment_field, h]

/-- C5, witness: the amended claim applied to the mapping of the
counterexample. -/
theorem c5_mapping_default_witness :
    segment_field (⟨some [("offset", (5 : ℚ))], [], none⟩ : PySegment ℚ) "start" 0 = 0 :=
  c5_mapping_default _ _ _ _ _ rfl

/-- C6: a segment whose cleaned text is empty contributes no bullet line; the
detailed-mode body is the bullet lines of the remaining segments, and is
exactly the single placeholder line whenever every segment is skipped
(including the no-segment case). -/
theorem c6_empty_segments (segs : List TranscriptSegment) :
    (segments_to_markdown segs =
      if (segs.filter fun s => cleanText s.text != "") = [] then [placeholderLine]
      else (segs.filter fun s => cleanText s.text != "").map bulletLine) ∧
    ((∀ s ∈ segs, cleanText s.text = "") →
      segments_to_markdown segs = [placeholderLine]) := by
  have hl := segLines_eq_filter segs
  constructor
  · simp only [segments_to_markdown, hl]
    by_cases hf : (segs.filter fun s => cleanText s.text != "") = []
    · simp [hf]
    · simp [hf, List.map_eq_nil_iff]
  · intro hall
    have hf : (segs.filter fun s => cleanText s.text != "") = [] := by
      rw [List.filter_eq_nil_iff]
      intro s hs
      simp [hall s hs]
    simp [segments_to_markdown, hl, hf]

/-- C6, witness: two all-whitespace segments, and no segments at all, both
render as exactly the placeholder line. -/
theorem c6_empty_segments_witness :
    segments_to_markdown [⟨0, 4, " \n "⟩, ⟨1, 2, ""⟩] = [placeholderLine] ∧
    segments_to_markdown [] = [placeholderLine] :=
  ⟨(c6_empty_segments _).2 (by decide), (c6_empty_segments []).2 (by simp)⟩

/-- C8: the condensed renderer of src/app.py produces the spec's condensed
layout: a header holding the resolved title and the URL only, then every
segment text — none skipped, no timestamps — joined by single spaces. -/
theorem c8_condensed_matches_spec (title : Option String) (url : String)
    (segs : List TranscriptSegment) :
    format_transcript_to_markdown title url segs = condensedSpecRender title url segs := by
  simp only [format_transcript_to_markdown, condensedSpecRender, intercalate_spaces]

/-- C9: a non-mapping segment without a usable `start` attribute and without
a `to_dict` capability, exposing only an `offset` attribute, normalizes the
`start` field to the offset value rather than the default. -/
theorem c9_offset_alias {α : Type} (seg : PySegment α) (v default : α)
    (hdict : seg.asDict = none) (hstart : attrLookup seg.attrs "start" = none)
    (htd : seg.toDict = none) (hoff : attrLookup seg.attrs "offset" = some v) :
    segment_field seg "start" default = v := by
  have hfa : fieldAliases "start" = ["offset", "time"] := rfl
  simp only [segment_field, hdict, hstart, htd, hfa, aliasLookup, hoff]

/-- C9, witness: a segment with only an `offset` attribute of value 3. -/
theorem c9_offset_alias_witness :
    segment_field (⟨none, [("offset", some (3 : ℚ))], none⟩ : PySegment ℚ) "start" 0 = 3 :=
  c9_offset_alias _ _ _ rfl rfl rfl rfl

/-- C10: the first recognition pattern anchors on any slash and never checks
the host, so a non-YouTube URL whose path holds an eleven-character run over
the ID alphabet yields that run instead of absent. -/
theorem c10_host_not_checked :
    extract_video_id "https://example.com/abcdefghijk" = some "abcdefghijk" := by decide

/-- C1: when no language is requested and the catalog holds at least one
manual track, a successful selection returns a track with `is_generated`
false (the modelled provider lookup prefers the manual track per code). -/
theorem c1_manual_preference (catalog : List Track) (t : Track) (langs : List String)
    (hmanual : ∃ m ∈ catalog, m.is_generated = false)
    (h : fetch_transcript catalog none = Except.ok (t, langs)) :
    t.is_generated = false := by
  obtain ⟨m, hm, hgen⟩ := hmanual
  have hmem : m.language_code ∈ (catalog.filter fun t => !t.is_generated).map Track.language_code :=
    List.mem_map_of_mem _ (List.mem_filter.mpr ⟨hm, by simp [hgen]⟩)
  have hne : ((catalog.filter fun t => !t.is_generated).map Track.language_code) ≠ [] :=
    List.ne_nil_of_mem hmem
  have hall : ∀ l ∈ (catalog.filter fun t => !t.is_generated).map Track.language_code,
      ∃ m2 ∈ catalog, m2.language_code = l ∧ m2.is_generated = false := by
    intro l hl
    obtain ⟨m2, hm2, rfl⟩ := List.mem_map.mp hl
    have h2 := List.mem_filter.mp hm2
    exact ⟨m2, h2.1, rfl, by simpa using h2.2⟩
  obtain ⟨l0, rest, hcons⟩ := List.exists_cons_of_ne_nil hne
  obtain ⟨t2, ht2⟩ := find_transcript_isSome catalog l0 rest
    (hall l0 (by rw [hcons]; exact List.mem_cons_self _ _))
  have hfind : find_transcript catalog
      ((catalog.filter fun t => !t.is_generated).map Track.language_code) = some t2 := by
    rw [hcons]; exact ht2
  have ht2gen : t2.is_generated = false :=
    find_transcript_manual catalog _ hall t2 hfind
  simp only [fetch_transcript, if_neg hne, hfind] at h
  simp only [Except.ok.injEq, Prod.mk.injEq] at h
  rw [← h.1]
  exact ht2gen

/-- C1, witness: a catalog with a generated English track and a manual
Spanish track selects the manual Spanish track. -/
theorem c1_manual_preference_witness :
    fetch_transcript [⟨"en", true⟩, ⟨"es", false⟩] none =
      Except.ok (⟨"es", false⟩, ["en", "es"]) ∧
    (⟨"es", false⟩ : Track).is_generated = false := by
  have hfetch : fetch_transcript [⟨"en", true⟩, ⟨"es", false⟩] none =
      Except.ok (⟨"es", false⟩, ["en", "es"]) := by
    simp +decide [fetch_transcript, find_transcript, sortedUnique, List.insertionSort,
      List.orderedInsert, List.dedup, String.le_iff_toList_le, List.find?]
  exact ⟨hfetch,
    c1_manual_preference [⟨"en", true⟩, ⟨"es", false⟩] ⟨"es", false⟩ ["en", "es"]
      ⟨⟨"es", false⟩, by simp, rfl⟩ hfetch⟩

/-- C2: a requested language with no exact code match in the catalog fails
with `LanguageNotAvailable` whose message embeds the comma-joined sorted,
deduplicated available codes; no fallback step runs (the result is this error
and nothing else), and the embedded list is duplicate-free, sorted and holds
exactly the catalog's codes. -/
theorem c2_language_not_available (catalog : List Track) (l : String)
    (h : ∀ tr ∈ catalog, tr.language_code ≠ l) :
    fetch_transcript catalog (some l) =
      Except.error (FetchError.languageNotAvailable
        ("Language \'" ++ l ++ "\' not found. Available languages: " ++
          String.intercalate ", " (sortedUnique (catalog.map Track.language_code)))) ∧
    (sortedUnique (catalog.map Track.language_code)).Nodup ∧
    List.Sorted (fun a b => a ≤ b) (sortedUnique (catalog.map Track.language_code)) ∧
    (∀ c, c ∈ sortedUnique (catalog.map Track.language_code) ↔
      c ∈ catalog.map Track.language_code) := by
  refine ⟨?_, sortedUnique_nodup _, sortedUnique_sorted _, fun c => mem_sortedUnique⟩
  have hft := find_transcript_single_none catalog l h
  simp only [fetch_transcript, hft]

/-- C2, witness: requesting "fr" against a catalog holding "es" and "en"
yields the error message with the sorted deduplicated list "en, es". -/
theorem c2_language_not_available_witness :
    fetch_transcript [⟨"es", false⟩, ⟨"en", true⟩] (some "fr") =
      Except.error (FetchError.languageNotAvailable
        "Language \'fr\' not found. Available languages: en, es") := by
  have h := c2_language_not_available [⟨"es", false⟩, ⟨"en", true⟩] "fr" (by decide)
  rw [h.1]
  simp +decide [sortedUnique, List.insertionSort, List.orderedInsert, List.dedup,
    String.le_iff_toList_le]

/-- C7: the language list of every successful fetch is duplicate-free and
sorted, holds exactly the catalog's codes, and holds each catalog code exactly
once — a code present both as a manual and as a generated track appears
once. -/
theorem c7_available_languages (catalog : List Track) (language : Option String)
    (t : Track) (langs : List String)
    (h : fetch_transcript catalog language = Except.ok (t, langs)) :
    langs.Nodup ∧ List.Sorted (fun a b => a ≤ b) langs ∧
    (∀ c, c ∈ langs ↔ c ∈ catalog.map Track.language_code) ∧
    (∀ c ∈ catalog.map Track.language_code, langs.count c = 1) := by
  have hl := fetch_ok_langs catalog language t langs h
  subst hl
  refine ⟨sortedUnique_nodup _, sortedUnique_sorted _,
    fun c => mem_sortedUnique.trans mem_sortedUnique, fun c hc => ?_⟩
  exact List.count_eq_one_of_mem (sortedUnique_nodup _)
    (mem_sortedUnique.mpr (mem_sortedUnique.mpr hc))

/-- C7, witness: a catalog holding "en" both manual and generated plus a
generated "es" fetches with the list ["en", "es"], where "en" counts once. -/
theorem c7_available_languages_witness :
    (["en", "es"] : List String).Nodup ∧
    List.Sorted (fun a b => a ≤ b) ["en", "es"] ∧
    (∀ c, c ∈ (["en", "es"] : List String) ↔
      c ∈ List.map Track.language_code
        [⟨"en", false⟩, ⟨"en", true⟩, ⟨"es", true⟩]) ∧
    (∀ c ∈ List.map Track.language_code
        [(⟨"en", false⟩ : Track), ⟨"en", true⟩, ⟨"es", true⟩],
      (["en", "es"] : List String).count c = 1) := by
  have hfetch : fetch_transcript [⟨"en", false⟩, ⟨"en", true⟩, ⟨"es", true⟩] none =
      Except.ok (⟨"en", false⟩, ["en", "es"]) := by
    simp +decide [fetch_transcript, find_transcript, sortedUnique, List.insertionSort,
      List.orderedInsert, List.dedup, String.le_iff_toList_le, List.find?]
  exact c7_available_languages [⟨"en", false⟩, ⟨"en", true⟩, ⟨"es", true⟩] none
    ⟨"en", false⟩ ["en", "es"] hfetch

/-- C3: each of the three accepted URL shapes embedding a valid
eleven-character ID extracts exactly that ID; every successful extraction is
an eleven-character string over the ID alphabet; the empty string and a URL
in which no pattern matches an eleven-character ID give absent (and the total
function never fails). -/
theorem c3_extract (id : String) (h11 : id.length = 11)
    (hall : id.data.all idChar = true) :
    extract_video_id ("https://www.youtube.com/watch?v=" ++ id) = some id ∧
    extract_video_id ("https://youtu.be/" ++ id) = some id ∧
    extract_video_id ("https://www.youtube.com/embed/" ++ id) = some id ∧
    (∀ url s, extract_video_id url = some s →
      s.length = 11 ∧ s.data.all idChar = true) ∧
    extract_video_id "" = none ∧
    extract_video_id "https://example.com/video" = none := by
  obtain ⟨x0, x1, x2, x3, x4, x5, x6, x7, x8, x9, x10, hdata⟩ := list_eleven id.data h11
  rw [hdata] at hall
  simp only [List.all_cons, List.all_nil, Bool.and_eq_true, and_true] at hall
  obtain ⟨h0, h1, h2, h3, h4, h5, h6, h7, h8, h9, h10⟩ := hall
  have hmk : String.mk id.data = id := by cases id; rfl
  refine ⟨?_, ?_, ?_, ?_, by decide, by decide⟩
  · have hne : ("https://www.youtube.com/watch?v=" ++ id) ≠ "" := by
      simp +decide [String.ext_iff, String.data_append]
    have hs : searchP1 ("https://www.youtube.com/watch?v=".data ++
        [x0, x1, x2, x3, x4, x5, x6, x7, x8, x9, x10]) =
        some [x0, x1, x2, x3, x4, x5, x6, x7, x8, x9, x10] := by
      simp +decide [searchP1, tryHead1, takeGroup, h0, h1, h2, h3, h4, h5, h6, h7, h8, h9, h10]
    simp only [extract_video_id, if_neg hne, String.data_append, hdata, firstPattern, hs]
    simp only [List.length_cons, List.length_nil, Option.map_some]
    rw [← hdata]
    simp [hmk]
  · have hne : ("https://youtu.be/" ++ id) ≠ "" := by
      simp +decide [String.ext_iff, String.data_append]
    have hs : searchP1 ("https://youtu.be/".data ++
        [x0, x1, x2, x3, x4, x5, x6, x7, x8, x9, x10]) =
        some [x0, x1, x2, x3, x4, x5, x6, x7, x8, x9, x10] := by
      simp +decide [searchP1, tryHead1, takeGroup, h0, h1, h2, h3, h4, h5, h6, h7, h8, h9, h10]
    simp only [extract_video_id, if_neg hne, String.data_append, hdata, firstPattern, hs]
    simp only [List.length_cons, List.length_nil, Option.map_some]
    rw [← hdata]
    simp [hmk]
  · have hne : ("https://www.youtube.com/embed/" ++ id) ≠ "" := by
      simp +decide [String.ext_iff, String.data_append]
    have hs : searchP1 ("https://www.youtube.com/embed/".data ++
        [x0, x1, x2, x3, x4, x5, x6, x7, x8, x9, x10]) =
        some [x0, x1, x2, x3, x4, x5, x6, x7, x8, x9, x10] := by
      simp +decide [searchP1, tryHead1, takeGroup, h0, h1, h2, h3, h4, h5, h6, h7, h8, h9, h10]
    simp only [extract_video_id, if_neg hne, String.data_append, hdata, firstPattern, hs]
    simp only [List.length_cons, List.length_nil, Option.map_some]
    rw [← hdata]
    simp [hmk]
  · intro url s h
    simp only [extract_video_id] at h
    split at h
    · exact absurd h (by simp)
    · obtain ⟨g, hg, rfl⟩ := Option.map_eq_some'.mp h
      obtain ⟨hlen, hcl⟩ := firstPattern_some hg
      exact ⟨hlen, hcl⟩

/-- C3, witness: the three shapes instantiated with the ID dQw4w9WgXcQ. -/
theorem c3_extract_witness :
    extract_video_id "https://www.youtube.com/watch?v=dQw4w9WgXcQ" = some "dQw4w9WgXcQ" ∧
    extract_video_id "https://youtu.be/dQw4w9WgXcQ" = some "dQw4w9WgXcQ" ∧
    extract_video_id "https://www.youtube.com/embed/dQw4w9WgXcQ" = some "dQw4w9WgXcQ" := by
  have h := c3_extract "dQw4w9WgXcQ" (by decide) (by decide)
  exact ⟨h.1, h.2.1, h.2.2.1⟩
